import Mathlib

/-!
Verification development for the wemp WeChat-MP channel plugin.

The TypeScript sources are shallowly embedded: file I/O becomes explicit
state passing over association lists, `Date.now()` becomes an explicit
`now : Nat` argument (milliseconds), JS byte buffers become `List Nat`
or `List Char`, and fallible operations return `Option` / `Except`.
JS truthiness of optional strings (`undefined` and `""` are falsy) is
modelled by `strTruthy`.
-/

set_option maxRecDepth 4096

/-- JS truthiness of an optional string: `undefined` and `""` are falsy. -/
def strTruthy : Option String → Bool
  | none => false
  | some s => s ≠ ""

/-- Does the character list start with the given pattern?  Computable model of
`String.prototype.startsWith` (Lean's own `String.startsWith` does not reduce
in the kernel). -/
def listStartsWith : List Char → List Char → Bool
  | _, [] => true
  | [], _ :: _ => false
  | a :: as, b :: bs => a = b && listStartsWith as bs

/-- Model of `String.prototype.startsWith`. -/
def jsStartsWith (s pat : String) : Bool := listStartsWith s.data pat.data

/-- Model of `String.prototype.endsWith`. -/
def jsEndsWith (s pat : String) : Bool := listStartsWith s.data.reverse pat.data.reverse

/-- Strip leading and trailing whitespace from a character list. -/
def trimChars (l : List Char) : List Char :=
  ((l.dropWhile Char.isWhitespace).reverse.dropWhile Char.isWhitespace).reverse

/-- Model of `String.prototype.trim` (ASCII whitespace suffices for the
embedded call sites). -/
def jsTrim (s : String) : String := String.mk (trimChars s.data)

/-- Model of `String.prototype.toLowerCase` (the embedded call sites only meet
ASCII). -/
def jsToLower (s : String) : String := String.mk (s.data.map Char.toLower)

/-- Model of `String.prototype.toUpperCase`. -/
def jsToUpper (s : String) : String := String.mk (s.data.map Char.toUpper)

/-- Split a character list on a single-character separator, modelling
`String.prototype.split` with a one-character separator. -/
def splitOnCharAux (sep : Char) : List Char → List Char → List (List Char)
  | [], acc => [acc.reverse]
  | c :: rest, acc =>
    if c = sep then acc.reverse :: splitOnCharAux sep rest []
    else splitOnCharAux sep rest (c :: acc)

/-- Model of `s.split(sep)` for a one-character separator. -/
def jsSplitChar (s : String) (sep : Char) : List String :=
  (splitOnCharAux sep s.data []).map String.mk

/-- Lookup in an association list, modelling a JS object / `Map` read. -/
def assocLookup {β : Type} (l : List (String × β)) (k : String) : Option β :=
  match l.find? (fun e => e.1 = k) with
  | some e => some e.2
  | none => none

/-- Update/insert in an association list, modelling `Map.set` / object assignment. -/
def assocSet {β : Type} (l : List (String × β)) (k : String) (v : β) : List (String × β) :=
  if (l.find? (fun e => e.1 = k)).isSome then
    l.map (fun e => if e.1 = k then (k, v) else e)
  else
    l ++ [(k, v)]

/-- Remove a key, modelling `delete obj[k]`. -/
def assocRemove {β : Type} (l : List (String × β)) (k : String) : List (String × β) :=
  l.filter (fun e => e.1 ≠ k)

theorem assocLookup_nil {β : Type} (k : String) : assocLookup ([] : List (String × β)) k = none := rfl

theorem assocLookup_remove {β : Type} (l : List (String × β)) (k : String) :
    assocLookup (assocRemove l k) k = none := by
  unfold assocLookup assocRemove
  induction l with
  | nil => rfl
  | cons e rest ih =>
    by_cases h : e.1 = k
    · simpa [List.filter, h] using ih
    · simpa [List.filter, h, List.find?] using ih

/-! ## Persistent JSON store (`readJsonFile`, src/unnamed/part_004) -/

/--
Embedding of `readJsonFile<T>(filePath, defaultValue)` from the storage
module.  The file system is modelled by `file : Option String` (the file's
contents when it exists; `none` for a missing file or a read failure) and
`JSON.parse` by `parseJson : String → Option J` (`none` models a parse
exception).  The `try/catch` of the source becomes the total `Option`
fallbacks, so the embedded function can never throw.
-/
def readJsonFile {J : Type} (parseJson : String → Option J) (file : Option String)
    (defaultValue : J) : J :=
  match file with
  | none => defaultValue
  | some content =>
    match parseJson content with
    | some v => v
    | none => defaultValue

/-- C8: reading the persistent JSON store returns the parsed contents when the
file exists and parses, and returns the supplied default (without throwing —
the embedding is a total function) when the file is missing or fails to parse. -/
theorem readJsonFile_default_or_parsed {J : Type} (parseJson : String → Option J)
    (file : Option String) (d : J) :
    (file = none → readJsonFile parseJson file d = d) ∧
    (∀ c, file = some c → parseJson c = none → readJsonFile parseJson file d = d) ∧
    (∀ c v, file = some c → parseJson c = some v → readJsonFile parseJson file d = v) := by
  refine ⟨?_, ?_, ?_⟩
  · intro h; simp [readJsonFile, h]
  · intro c hc hp; simp [readJsonFile, hc, hp]
  · intro c v hc hp; simp [readJsonFile, hc, hp]

/-- Witness for C8 at concrete inputs: a missing file and a corrupt file both
yield the default document `7`, a parsing file yields its parsed value. -/
theorem readJsonFile_default_or_parsed_witness :
    readJsonFile (fun s => if s = "1" then some 1 else none) none 7 = 7 ∧
    readJsonFile (fun s => if s = "1" then some 1 else none) (some "corrupt") 7 = 7 ∧
    readJsonFile (fun s => if s = "1" then some 1 else none) (some "1") 7 = 1 := by
  refine ⟨?_, ?_, ?_⟩
  · exact (readJsonFile_default_or_parsed (fun s => if s = "1" then some 1 else none)
      none 7).1 rfl
  · exact (readJsonFile_default_or_parsed (fun s => if s = "1" then some 1 else none)
      (some "corrupt") 7).2.1 "corrupt" rfl (by decide)
  · exact (readJsonFile_default_or_parsed (fun s => if s = "1" then some 1 else none)
      (some "1") 7).2.2 "1" 1 rfl (by decide)

/-! ## Message dedup (`handleMessage`, src/unnamed/part_002) -/

/-- Dedup window: `setTimeout(() => processingMessages.delete(msgKey), 30000)`
(literal `30000` in the first webhook-handler revision; the newer revision
imports the same value as `MESSAGE_DEDUP_TIMEOUT_MS`). -/
def MESSAGE_DEDUP_TIMEOUT_MS : Nat := 30000

/-- Dedup key `accountId:openId:(msgId || createTime)`; `msg.msgId || msg.createTime`
falls back on a missing or empty (falsy) `msgId`. -/
def dedupMsgKey (accountId openId : String) (msgId : Option String) (createTime : String) :
    String :=
  accountId ++ ":" ++ openId ++ ":" ++
    (match msgId with
     | some m => if m = "" then createTime else m
     | none => createTime)

/-- The `processingMessages` set, each key paired with the instant its eviction
timer fires (insertion time + dedup window). -/
structure DedupState where
  entries : List (String × Nat)
deriving Repr, DecidableEq

/-- Timers that have fired by `now` have removed their keys: keep an entry only
while `now` is before its eviction instant. -/
def evictExpired (st : DedupState) (now : Nat) : DedupState :=
  ⟨st.entries.filter (fun e => now < e.2)⟩

/--
Embedding of the dedup fragment of `handleMessage`: after any due evictions,
a key already in `processingMessages` is dropped (`false`, no further
processing and no state change), otherwise it is recorded with an eviction
timer `MESSAGE_DEDUP_TIMEOUT_MS` in the future and processing continues
(`true`).
-/
def dedupStep (st : DedupState) (now : Nat) (key : String) : Bool × DedupState :=
  let st1 := evictExpired st now
  if st1.entries.any (fun e => e.1 = key) then
    (false, st1)
  else
    (true, ⟨(key, now + MESSAGE_DEDUP_TIMEOUT_MS) :: st1.entries⟩)

theorem evictExpired_subset (st : DedupState) (now : Nat) :
    ∀ e ∈ (evictExpired st now).entries, e ∈ st.entries := by
  intro e he
  exact List.mem_of_mem_filter he

/-- C5: for two deliveries sharing the dedup key within the 30 s window, the
first triggers processing and the repeat is silently dropped as a no-op (the
state is left as the mere eviction pass), and the key is auto-evicted once the
window has elapsed, after which a fresh delivery processes again. -/
theorem dedup_second_delivery_dropped (st : DedupState) (acc oid : String)
    (mid : Option String) (ct : String) (t0 t1 t2 : Nat)
    (hfresh : ∀ e ∈ st.entries, e.1 ≠ dedupMsgKey acc oid mid ct)
    (h1lo : t0 ≤ t1) (h1hi : t1 < t0 + MESSAGE_DEDUP_TIMEOUT_MS)
    (h2 : t0 + MESSAGE_DEDUP_TIMEOUT_MS ≤ t2) :
    (dedupStep st t0 (dedupMsgKey acc oid mid ct)).1 = true ∧
    (dedupStep (dedupStep st t0 (dedupMsgKey acc oid mid ct)).2 t1
        (dedupMsgKey acc oid mid ct)).1 = false ∧
    (dedupStep (dedupStep st t0 (dedupMsgKey acc oid mid ct)).2 t1
        (dedupMsgKey acc oid mid ct)).2 =
      evictExpired (dedupStep st t0 (dedupMsgKey acc oid mid ct)).2 t1 ∧
    (∀ e ∈ (evictExpired (dedupStep st t0 (dedupMsgKey acc oid mid ct)).2 t2).entries,
        e.1 ≠ dedupMsgKey acc oid mid ct) ∧
    (dedupStep (dedupStep st t0 (dedupMsgKey acc oid mid ct)).2 t2
        (dedupMsgKey acc oid mid ct)).1 = true := by
  set key := dedupMsgKey acc oid mid ct with hkey
  have hEfresh : ∀ e ∈ (evictExpired st t0).entries, e.1 ≠ key := by
    intro e he
    exact hfresh e (evictExpired_subset st t0 e he)
  have hany : ((evictExpired st t0).entries.any (fun e => e.1 = key)) = false := by
    rw [List.any_eq_false]
    intro e he
    simpa using hEfresh e he
  have hstep1 : dedupStep st t0 key =
      (true, ⟨(key, t0 + MESSAGE_DEDUP_TIMEOUT_MS) :: (evictExpired st t0).entries⟩) := by
    simp [dedupStep, hany]
  rw [hstep1]
  dsimp only
  set E := (evictExpired st t0).entries with hE
  have hmem2 : (key, t0 + MESSAGE_DEDUP_TIMEOUT_MS) ∈
      (evictExpired ⟨(key, t0 + MESSAGE_DEDUP_TIMEOUT_MS) :: E⟩ t1).entries := by
    refine List.mem_filter.2 ⟨List.mem_cons_self _ _, ?_⟩
    simpa using h1hi
  have hany2 : ((evictExpired ⟨(key, t0 + MESSAGE_DEDUP_TIMEOUT_MS) :: E⟩ t1).entries.any
      (fun e => e.1 = key)) = true := by
    rw [List.any_eq_true]
    exact ⟨_, hmem2, by simp⟩
  have hat2 : ∀ e ∈ (evictExpired ⟨(key, t0 + MESSAGE_DEDUP_TIMEOUT_MS) :: E⟩ t2).entries,
      e.1 ≠ key := by
    intro e he
    have hsub := List.mem_filter.1 he
    rcases List.mem_cons.1 hsub.1 with h | h
    · exfalso
      have : t2 < t0 + MESSAGE_DEDUP_TIMEOUT_MS := by
        have := hsub.2
        rw [h] at this
        simpa using this
      omega
    · exact hEfresh e h
  have hany3 : ((evictExpired ⟨(key, t0 + MESSAGE_DEDUP_TIMEOUT_MS) :: E⟩ t2).entries.any
      (fun e => e.1 = key)) = false := by
    rw [List.any_eq_false]
    intro e he
    simpa using hat2 e he
  refine ⟨rfl, ?_, ?_, hat2, ?_⟩
  · simp [dedupStep, hany2]
  · simp [dedupStep, hany2]
  · simp [dedupStep, hany3]

/-- Witness for C5 at a concrete run: a fresh state, first delivery at 0 ms,
repeat at 10 000 ms, third delivery at 30 000 ms. -/
theorem dedup_second_delivery_dropped_witness :
    (dedupStep ⟨[]⟩ 0 (dedupMsgKey "acct" "user" (some "m1") "1700")).1 = true ∧
    (dedupStep (dedupStep ⟨[]⟩ 0 (dedupMsgKey "acct" "user" (some "m1") "1700")).2 10000
        (dedupMsgKey "acct" "user" (some "m1") "1700")).1 = false := by
  have h := dedup_second_delivery_dropped ⟨[]⟩ "acct" "user" (some "m1") "1700" 0 10000 30000
    (by intro e he; simp at he) (by decide) (by decide) (by decide)
  exact ⟨h.1, h.2.1⟩

/-! ## Pairing-API rate limiter (`checkPairingApiRateLimit`, src/src/pairing.ts) -/

def PAIRING_API_RATE_WINDOW_MS : Nat := 60000

def PAIRING_API_RATE_MAX : Nat := 30

/-- One fixed-window bucket of the `pairingApiRate` map. -/
structure RateBucket where
  count : Nat
  resetAt : Nat
deriving Repr, DecidableEq

inductive RateResult where
  | ok : RateResult
  | tooMany (retryAfterSec : Nat) : RateResult
deriving Repr, DecidableEq

/-- `Math.ceil(ms / 1000)` for a non-negative integer millisecond count. -/
def jsCeilDiv1000 (ms : Nat) : Nat := (ms + 999) / 1000

/-- Lazy cleanup: once the table holds more than 1000 entries, drop the ones
whose window has expired (`now > val.resetAt`). -/
def pruneRateTable (table : List (String × RateBucket)) (now : Nat) :
    List (String × RateBucket) :=
  if 1000 < table.length then table.filter (fun e => now ≤ e.2.resetAt) else table

/--
Embedding of `checkPairingApiRateLimit`: fixed 60 s window keyed by remote
address, max 30 requests; a fresh or expired bucket restarts at count 1; the
count is incremented even on limited requests; exceeding the max yields
`tooMany` carrying `Math.max(1, Math.ceil((resetAt - now) / 1000))`.
-/
def checkPairingApiRateLimit (table : List (String × RateBucket)) (ip : String) (now : Nat) :
    RateResult × List (String × RateBucket) :=
  let t := pruneRateTable table now
  match assocLookup t ip with
  | none => (.ok, assocSet t ip ⟨1, now + PAIRING_API_RATE_WINDOW_MS⟩)
  | some cur =>
    if cur.resetAt < now then
      (.ok, assocSet t ip ⟨1, now + PAIRING_API_RATE_WINDOW_MS⟩)
    else
      let cur2 : RateBucket := ⟨cur.count + 1, cur.resetAt⟩
      let t2 := assocSet t ip cur2
      if PAIRING_API_RATE_MAX < cur2.count then
        (.tooMany (Nat.max 1 (jsCeilDiv1000 (cur.resetAt - now))), t2)
      else
        (.ok, t2)

/-- Process a sequence of pairing-API requests (their arrival times) from one
remote address, threading the rate table. -/
def runRateRequests (ip : String) :
    List (String × RateBucket) → List Nat → List RateResult × List (String × RateBucket)
  | table, [] => ([], table)
  | table, t :: ts =>
    let r := checkPairingApiRateLimit table ip t
    let rest := runRateRequests ip r.2 ts
    (r.1 :: rest.1, rest.2)

theorem checkRate_singleton (ip : String) (k t0 now : Nat)
    (hnow : now ≤ t0 + PAIRING_API_RATE_WINDOW_MS) :
    checkPairingApiRateLimit [(ip, ⟨k, t0 + PAIRING_API_RATE_WINDOW_MS⟩)] ip now =
      ((if k + 1 ≤ PAIRING_API_RATE_MAX then RateResult.ok
        else RateResult.tooMany
          (Nat.max 1 (jsCeilDiv1000 (t0 + PAIRING_API_RATE_WINDOW_MS - now)))),
       [(ip, ⟨k + 1, t0 + PAIRING_API_RATE_WINDOW_MS⟩)]) := by
  have hlt : ¬ (t0 + PAIRING_API_RATE_WINDOW_MS < now) := by omega
  by_cases hk : k + 1 ≤ PAIRING_API_RATE_MAX
  · have : ¬ (PAIRING_API_RATE_MAX < k + 1) := by omega
    simp [checkPairingApiRateLimit, pruneRateTable, assocLookup, assocSet, List.find?,
      hlt, hk, this]
  · have : PAIRING_API_RATE_MAX < k + 1 := by omega
    simp [checkPairingApiRateLimit, pruneRateTable, assocLookup, assocSet, List.find?,
      hlt, hk, this]

theorem runRate_all_ok (ip : String) (t0 : Nat) :
    ∀ (ts : List Nat) (k : Nat), (∀ t ∈ ts, t ≤ t0 + PAIRING_API_RATE_WINDOW_MS) →
      k + ts.length ≤ PAIRING_API_RATE_MAX →
      runRateRequests ip [(ip, ⟨k, t0 + PAIRING_API_RATE_WINDOW_MS⟩)] ts =
        (ts.map (fun _ => RateResult.ok),
         [(ip, ⟨k + ts.length, t0 + PAIRING_API_RATE_WINDOW_MS⟩)]) := by
  intro ts
  induction ts with
  | nil => intro k _ _; simp [runRateRequests]
  | cons t rest ih =>
    intro k hin hcount
    have ht : t ≤ t0 + PAIRING_API_RATE_WINDOW_MS := hin t (List.mem_cons_self _ _)
    have hk : k + 1 ≤ PAIRING_API_RATE_MAX := by
      have := hcount
      simp [List.length_cons] at this
      omega
    have hstep := checkRate_singleton ip k t0 t ht
    rw [if_pos hk] at hstep
    have hrest := ih (k + 1) (fun x hx => hin x (List.mem_cons_of_mem _ hx))
      (by simp [List.length_cons] at hcount ⊢; omega)
    simp only [runRateRequests, hstep, hrest, List.map_cons, List.length_cons]
    have : k + 1 + rest.length = k + (rest.length + 1) := by omega
    rw [this]

theorem runRateRequests_append (ip : String) (tb : List (String × RateBucket))
    (xs ys : List Nat) :
    runRateRequests ip tb (xs ++ ys) =
      ((runRateRequests ip tb xs).1 ++
        (runRateRequests ip (runRateRequests ip tb xs).2 ys).1,
       (runRateRequests ip (runRateRequests ip tb xs).2 ys).2) := by
  induction xs generalizing tb with
  | nil => simp [runRateRequests]
  | cons x rest ih =>
    simp only [List.cons_append, runRateRequests, List.append_eq, ih]

/-- C7: from an empty table, 31 requests from the same address inside one
60 s window produce `ok` for the first 30 (in particular the 30th) and
`tooMany` for the 31st, whose `retryAfterSec` is
`max 1 ⌈(resetAt - now) / 1000⌉` — at least 1, and the remaining seconds
until the window resets. -/
theorem rate_limit_31st_rejected (ip : String) (t0 : Nat) (mid : List Nat) (tLast : Nat)
    (hmid : mid.length = 29)
    (hin : ∀ t ∈ mid, t ≤ t0 + PAIRING_API_RATE_WINDOW_MS)
    (hlast : tLast ≤ t0 + PAIRING_API_RATE_WINDOW_MS) :
    (runRateRequests ip [] (t0 :: (mid ++ [tLast]))).1 =
      RateResult.ok :: (mid.map (fun _ => RateResult.ok) ++
        [RateResult.tooMany
          (Nat.max 1 (jsCeilDiv1000 (t0 + PAIRING_API_RATE_WINDOW_MS - tLast)))]) ∧
    1 ≤ Nat.max 1 (jsCeilDiv1000 (t0 + PAIRING_API_RATE_WINDOW_MS - tLast)) := by
  constructor
  · have hfirst : checkPairingApiRateLimit [] ip t0 =
        (.ok, [(ip, ⟨1, t0 + PAIRING_API_RATE_WINDOW_MS⟩)]) := by
      simp [checkPairingApiRateLimit, pruneRateTable, assocLookup, assocSet]
    have hmidrun := runRate_all_ok ip t0 mid 1 hin (by rw [hmid]; decide)
    have hlaststep := checkRate_singleton ip 30 t0 tLast hlast
    rw [if_neg (by decide)] at hlaststep
    have h30 : 1 + mid.length = 30 := by rw [hmid]
    simp only [runRateRequests, hfirst, runRateRequests_append, hmidrun, h30, hlaststep,
      runRateRequests]
  · exact Nat.le_max_left _ _

/-- Witness for C7: a concrete 31-request burst at time 0 from one address;
the 30th request passes and the 31st is rejected with a 60-second retry hint. -/
theorem rate_limit_31st_rejected_witness :
    (runRateRequests "9.9.9.9" [] (0 :: (List.replicate 29 0 ++ [0]))).1 =
      RateResult.ok :: (List.replicate 29 (0 : Nat)).map (fun _ => RateResult.ok) ++
        [RateResult.tooMany 60] := by
  have h := rate_limit_31st_rejected "9.9.9.9" 0 (List.replicate 29 0) 0
    (by simp) (by intro t ht; simp at ht; omega) (by omega)
  have h1 := h.1
  have : Nat.max 1 (jsCeilDiv1000 (0 + PAIRING_API_RATE_WINDOW_MS - 0)) = 60 := by decide
  rw [this] at h1
  simpa using h1

/-! ## Access control / pairing resolver (opt-out overlay) -/

/-- Composite user key `accountId:openId` (`getUserKey` in pairing.ts and
ai-assistant-state.ts). -/
def getUserKey (accountId openId : String) : String := accountId ++ ":" ++ openId

/--
Modelled from the spec: the current pairing resolver — the allow-list
snapshot with the `OptOutStore` overlay — is not under src/ (only its
callers are, e.g. `isPaired({ runtime, accountId, openId })` in the newer
webhook handler).  Per the spec, `isPaired` returns false immediately when
the subject is present in the opt-out overlay, and otherwise matches
`accountId:openId` exactly against the allow-list snapshot.
-/
structure PairingResolverState where
  optOut : List String
  allowList : List String
deriving Repr, DecidableEq

/-- Modelled from the spec: opt-out is checked before the allow-list lookup. -/
def isPaired (st : PairingResolverState) (accountId openId : String) : Bool :=
  if st.optOut.contains (getUserKey accountId openId) then false
  else st.allowList.contains (getUserKey accountId openId)

/-- C1: for every subject present in the opt-out overlay, `isPaired` returns
false regardless of the allow-list contents — the opt-out check runs first and
always wins. -/
theorem isPaired_optOut_wins (st : PairingResolverState) (accountId openId : String)
    (h : getUserKey accountId openId ∈ st.optOut) :
    isPaired st accountId openId = false := by
  simp [isPaired, List.contains, List.elem_eq_mem, h]

/-- Witness for C1: a subject that is both on the allow-list and opted out is
not paired. -/
theorem isPaired_optOut_wins_witness :
    isPaired ⟨["acct:user"], ["acct:user"]⟩ "acct" "user" = false :=
  isPaired_optOut_wins ⟨["acct:user"], ["acct:user"]⟩ "acct" "user" (by decide)

/-! ## Inbound text debounce (src/unnamed/part_002, newer revision) -/

/-- Queued inbound text awaiting aggregation (`InboundTextDebounceItem`),
restricted to the fields the coordinator reads. -/
structure InboundTextDebounceItem where
  accountId : String
  openId : String
  text : String
  messageId : String
  timestamp : Nat
  agentId : String
  imageFilePath : Option String
deriving Repr, DecidableEq

/-- Embedding of `shouldDebounceInboundText`: only plain nonempty text without
an attached pending image and without a leading slash command is debounced. -/
def shouldDebounceInboundText (text : String) (imageFilePath : Option String) : Bool :=
  if strTruthy imageFilePath then false
  else
    let trimmed := jsTrim text
    if trimmed = "" then false
    else if jsStartsWith trimmed "/" then false
    else true

/-- Per-subject debounce key `accountId:openId` (the `buildKey` callback). -/
def buildDebounceKey (x : InboundTextDebounceItem) : String :=
  x.accountId ++ ":" ++ x.openId

/-- Routing decision of `dispatchInboundTextWithOptionalDebounce`: the item is
enqueued exactly when a positive interval is configured, the runtime provides a
debouncer factory, and `shouldDebounceInboundText` allows it; otherwise it
dispatches immediately. -/
def debounceRouteEnqueues (debounceMs : Nat) (hasDebouncer : Bool)
    (item : InboundTextDebounceItem) : Bool :=
  !(debounceMs == 0) && hasDebouncer &&
    shouldDebounceInboundText item.text item.imageFilePath

/-- Embedding of the `onFlush` callback: the queued items of one subject, in
arrival order, become a single dispatch that carries the most recent item's
metadata and the trimmed texts joined with newlines (falling back to the last
raw text when the join is empty); an empty batch dispatches nothing. -/
def flushCombinedDispatch (items : List InboundTextDebounceItem) :
    Option InboundTextDebounceItem :=
  match items.getLast? with
  | none => none
  | some last =>
    let combinedText :=
      String.intercalate "\n" ((items.map (fun x => jsTrim x.text)).filter (fun s => s ≠ ""))
    some { last with text := if combinedText = "" then last.text else combinedText }

/--
C6: two plain texts from the same subject arriving within the quiet interval
are both enqueued (modelled from the spec: the runtime debouncer —
`runtime.channel.debounce.createInboundDebouncer`, not under src/ — queues
same-key items and flushes them once as one batch after the quiet interval),
and the single flush dispatches once with the trimmed texts joined by a
newline and the most recent item's metadata; a slash-command text or an item
carrying a pending image is never enqueued and dispatches immediately.
-/
theorem debounce_combines_texts (debounceMs : Nat) (ia ib : InboundTextDebounceItem)
    (ta tb : Nat) (sa sb : String)
    (hms : debounceMs ≠ 0)
    (_hkey : buildDebounceKey ia = buildDebounceKey ib)
    (_hwin : tb - ta < debounceMs)
    (hia : jsTrim ia.text = sa) (hib : jsTrim ib.text = sb)
    (hsa : sa ≠ "") (hsb : sb ≠ "")
    (hca : jsStartsWith sa "/" = false) (hcb : jsStartsWith sb "/" = false)
    (himga : ia.imageFilePath = none) (himgb : ib.imageFilePath = none) :
    debounceRouteEnqueues debounceMs true ia = true ∧
    debounceRouteEnqueues debounceMs true ib = true ∧
    flushCombinedDispatch [ia, ib] = some { ib with text := sa ++ "\n" ++ sb } ∧
    (∀ item : InboundTextDebounceItem, jsStartsWith (jsTrim item.text) "/" = true →
        debounceRouteEnqueues debounceMs true item = false) ∧
    (∀ item : InboundTextDebounceItem, strTruthy item.imageFilePath = true →
        debounceRouteEnqueues debounceMs true item = false) := by
  have hinter : String.intercalate "\n" [sa, sb] = sa ++ "\n" ++ sb := by
    simp [String.intercalate, String.intercalate.go]
  have hne : sa ++ "\n" ++ sb ≠ "" := by
    intro h
    have hlen := congrArg String.length h
    simp [String.length_append] at hlen
    exact absurd hlen.1.2 (by decide)
  refine ⟨?_, ?_, ?_, ?_, ?_⟩
  · simp [debounceRouteEnqueues, shouldDebounceInboundText, himga, strTruthy, hia, hsa,
      hca, hms]
  · simp [debounceRouteEnqueues, shouldDebounceInboundText, himgb, strTruthy, hib, hsb,
      hcb, hms]
  · simp only [flushCombinedDispatch, List.getLast?, List.map_cons, List.map_nil, hia,
      hib]
    rw [List.filter_cons_of_pos, List.filter_cons_of_pos, List.filter_nil]
    · simp [hinter, hne]
    · simpa using hsb
    · simpa using hsa
  · intro item hcmd
    by_cases htr : jsTrim item.text = ""
    · simp [debounceRouteEnqueues, shouldDebounceInboundText, htr]
    · simp [debounceRouteEnqueues, shouldDebounceInboundText, htr, hcmd]
  · intro item himg
    simp [debounceRouteEnqueues, shouldDebounceInboundText, himg]

/-- Witness for C6: texts `"a"` then `"b"` flush once as `"a\nb"` with the
second item's metadata, while `"/status"` routes to immediate dispatch. -/
theorem debounce_combines_texts_witness :
    flushCombinedDispatch
      [⟨"acct", "u", "a", "m1", 1, "main", none⟩,
       ⟨"acct", "u", "b", "m2", 2, "main", none⟩] =
      some ⟨"acct", "u", "a\nb", "m2", 2, "main", none⟩ ∧
    debounceRouteEnqueues 1500 true ⟨"acct", "u", "/status", "m3", 3, "main", none⟩ = false := by
  have h := debounce_combines_texts 1500
    ⟨"acct", "u", "a", "m1", 1, "main", none⟩
    ⟨"acct", "u", "b", "m2", 2, "main", none⟩
    1 2 "a" "b" (by decide) rfl (by decide) (by decide) (by decide)
    (by decide) (by decide) (by decide) (by decide) rfl rfl
  refine ⟨h.2.2.1, ?_⟩
  exact h.2.2.2.1 ⟨"acct", "u", "/status", "m3", 3, "main", none⟩ (by decide)

/-! ## AI assistant toggle and message gating (src/unnamed/part_006 + part_002) -/

/-- Per-user AI assistant toggle record (`ai-assistant-state.ts`). -/
structure AiAssistantState where
  enabled : Bool
  enabledAt : Option Nat
  disabledAt : Option Nat
deriving Repr, DecidableEq

/-- Embedding of `isAiAssistantEnabled`: `state?.enabled ?? false` — a subject
with no recorded state is off by default. -/
def isAiAssistantEnabled (states : List (String × AiAssistantState))
    (accountId openId : String) : Bool :=
  match assocLookup states (getUserKey accountId openId) with
  | some st => st.enabled
  | none => false

/-- Embedding of `maybeSendAiDisabledHint`: no hint when the configured hint
text is empty; otherwise at most one hint per throttle window (a stored
timestamp of `0` is JS-falsy and does not throttle, as in the source).
Returns whether a hint is sent and the updated last-sent timestamp. -/
def maybeSendAiDisabledHint (disabledHint : String) (lastSentAt : Option Nat)
    (now throttleMs : Nat) : Bool × Option Nat :=
  if disabledHint = "" then (false, lastSentAt)
  else
    match lastSentAt with
    | some last =>
      if last ≠ 0 ∧ now - last < throttleMs then (false, lastSentAt)
      else (true, some now)
    | none => (true, some now)

/-- Message-processing outcomes of `handleMessage`; only `dispatchText` and
`dispatchVoice` reach the agent runtime (`dispatchInboundTextWithOptionalDebounce`). -/
inductive InboundAction where
  | skipDuplicate
  | handledEvent
  | handledCommand
  | aiDisabledSkip
  | dispatchText
  | imageAwaitCaption
  | imageDownloadFailed
  | dispatchVoice
  | unsupported
deriving Repr, DecidableEq

/-- Inbound message envelope fields read by `handleMessage`. -/
structure WechatMpMessage where
  fromUserName : String
  createTime : String
  msgType : String
  content : Option String
  msgId : Option String
  picUrl : Option String
  recognition : Option String
deriving Repr, DecidableEq

/--
Embedding of the dispatch decision of `handleMessage` (newer webhook-handler
revision): dedup first, then events, then the text / image / voice paths,
each gated on `isAiAssistantEnabled` before anything reaches the agent
runtime.  External collaborators enter as inputs: `commandHandled` is the
outcome of `handleSpecialCommand` and `imageDownloadOk` of
`downloadImageToFile`.
-/
def handleMessageAction (dedupSt : DedupState)
    (aiStates : List (String × AiAssistantState))
    (commandHandled : Bool) (imageDownloadOk : Bool)
    (now : Nat) (accountId : String) (msg : WechatMpMessage) : InboundAction :=
  let openId := msg.fromUserName
  let key := dedupMsgKey accountId openId msg.msgId msg.createTime
  if (dedupStep dedupSt now key).1 = false then .skipDuplicate
  else if msg.msgType = "event" then .handledEvent
  else if msg.msgType = "text" ∧ strTruthy msg.content then
    if commandHandled then .handledCommand
    else if isAiAssistantEnabled aiStates accountId openId = false then .aiDisabledSkip
    else .dispatchText
  else if msg.msgType = "image" ∧ strTruthy msg.picUrl then
    if isAiAssistantEnabled aiStates accountId openId = false then .aiDisabledSkip
    else if imageDownloadOk then .imageAwaitCaption
    else .imageDownloadFailed
  else if msg.msgType = "voice" ∧ strTruthy msg.recognition then
    if isAiAssistantEnabled aiStates accountId openId = false then .aiDisabledSkip
    else .dispatchVoice
  else .unsupported

/--
C10: a subject with no recorded state has the assistant off by default; with
the assistant off, no inbound text, image or voice message ever produces an
agent dispatch (`dispatchText` / `dispatchVoice`) nor the enabled-only image
flow — a non-duplicate, non-command text/image/voice message lands on the
disabled-skip path, whose only outward effect is the throttled hint: a second
hint attempt inside the throttle window sends nothing.
-/
theorem ai_disabled_never_dispatches (dedupSt : DedupState)
    (aiStates : List (String × AiAssistantState))
    (commandHandled imageDownloadOk : Bool) (now : Nat) (accountId : String)
    (msg : WechatMpMessage)
    (hoff : isAiAssistantEnabled aiStates accountId msg.fromUserName = false) :
    (assocLookup aiStates (getUserKey accountId msg.fromUserName) = none →
      isAiAssistantEnabled aiStates accountId msg.fromUserName = false) ∧
    (handleMessageAction dedupSt aiStates commandHandled imageDownloadOk now accountId
        msg ≠ .dispatchText ∧
      handleMessageAction dedupSt aiStates commandHandled imageDownloadOk now accountId
        msg ≠ .dispatchVoice ∧
      handleMessageAction dedupSt aiStates commandHandled imageDownloadOk now accountId
        msg ≠ .imageAwaitCaption) ∧
    ((dedupStep dedupSt now
          (dedupMsgKey accountId msg.fromUserName msg.msgId msg.createTime)).1 = true →
      commandHandled = false →
      (msg.msgType = "text" ∧ strTruthy msg.content = true) ∨
        (msg.msgType = "image" ∧ strTruthy msg.picUrl = true) ∨
        (msg.msgType = "voice" ∧ strTruthy msg.recognition = true) →
      handleMessageAction dedupSt aiStates commandHandled imageDownloadOk now accountId
        msg = .aiDisabledSkip) ∧
    (∀ hint t0 t1 throttleMs, hint ≠ "" → t0 ≠ 0 → t1 - t0 < throttleMs →
      (maybeSendAiDisabledHint hint none t0 throttleMs).1 = true ∧
      (maybeSendAiDisabledHint hint (some t0) t1 throttleMs).1 = false) := by
  refine ⟨fun hnone => by simp [isAiAssistantEnabled, hnone], ?_, ?_, ?_⟩
  · simp only [handleMessageAction]
    refine ⟨?_, ?_, ?_⟩ <;>
      split_ifs <;> simp_all
  · intro hdedup hcmd hkind
    simp only [handleMessageAction]
    have hdedup2 : ¬ ((dedupStep dedupSt now
        (dedupMsgKey accountId msg.fromUserName msg.msgId msg.createTime)).1 = false) := by
      simp [hdedup]
    rcases hkind with ⟨hty, hc⟩ | ⟨hty, hc⟩ | ⟨hty, hc⟩ <;>
      simp [hdedup2, hty, hc, hcmd, hoff]
  · intro hint t0 t1 throttleMs hh ht0 hwin
    constructor
    · simp [maybeSendAiDisabledHint, hh]
    · simp [maybeSendAiDisabledHint, hh, ht0, hwin]

/-- Witness for C10: empty state map (assistant off by default), a concrete
disabled text message skips dispatch, and a second hint at 1 s after a first
hint at t = 5 s under a 10 min throttle is suppressed. -/
theorem ai_disabled_never_dispatches_witness :
    handleMessageAction ⟨[]⟩ [] false true 0 "acct"
      ⟨"user", "1700", "text", some "hello", some "m1", none, none⟩ = .aiDisabledSkip ∧
    (maybeSendAiDisabledHint "off" (some 5000) 6000 600000).1 = false := by
  have h := ai_disabled_never_dispatches ⟨[]⟩ [] false true 0 "acct"
    ⟨"user", "1700", "text", some "hello", some "m1", none, none⟩ (by decide)
  refine ⟨?_, ?_⟩
  · refine h.2.2.1 (by decide) rfl ?_
    exact Or.inl ⟨rfl, by decide⟩
  · exact (h.2.2.2 "off" 5000 6000 600000 (by decide) (by decide) (by decide)).2

/-! ## Byte-capped response reading (`readResponseBytesWithLimit`, src/unnamed/part_005) -/

/-- Response body as seen by `readResponseBytesWithLimit`: either no streaming
body (the `arrayBuffer()` fallback) or a stream of byte chunks. -/
inductive RespBody where
  | buffered (bytes : List Nat)
  | streamed (chunks : List (List Nat))
deriving Repr, DecidableEq

/-- Response inputs: `contentLengthHeader` models a present `Content-Length`
header whose `Number(...)` is finite (absent or non-finite headers are `none`,
matching the guarded pre-check). -/
structure HttpResponse where
  contentLengthHeader : Option Nat
  body : RespBody
deriving Repr, DecidableEq

/-- The streaming loop of `readResponseBytesWithLimit`: accumulate chunks,
keeping a running total, and abort with an error the moment the total would
exceed the cap (the remaining chunks are never read). -/
def readChunksLoop (maxBytes : Nat) : Nat → List (List Nat) → Except String (List (List Nat))
  | _, [] => .ok []
  | total, c :: rest =>
    if maxBytes < total + c.length then .error "response body too large"
    else
      match readChunksLoop maxBytes (total + c.length) rest with
      | .ok out => .ok (c :: out)
      | .error e => .error e

/-- Embedding of `readResponseBytesWithLimit`: a finite `Content-Length`
beyond the cap fails before the body is touched; otherwise the body is read —
wholesale for the no-stream fallback, chunk by chunk with the running-total
abort for a stream — and the collected bytes are returned. -/
def readResponseBytesWithLimit (resp : HttpResponse) (maxBytes : Nat) :
    Except String (List Nat) :=
  match resp.contentLengthHeader with
  | some n =>
    if maxBytes < n then .error "content-length exceeds limit"
    else readResponseBody resp.body maxBytes
  | none => readResponseBody resp.body maxBytes
where
  readResponseBody (body : RespBody) (maxBytes : Nat) : Except String (List Nat) :=
    match body with
    | .buffered bytes =>
      if maxBytes < bytes.length then .error "response body too large"
      else .ok bytes
    | .streamed chunks =>
      match readChunksLoop maxBytes 0 chunks with
      | .ok out => .ok out.flatten
      | .error e => .error e

theorem readChunksLoop_ok (maxBytes : Nat) :
    ∀ (chunks : List (List Nat)) (total : Nat) (out : List (List Nat)),
      total ≤ maxBytes →
      readChunksLoop maxBytes total chunks = .ok out →
      out = chunks ∧ total + (chunks.map List.length).sum ≤ maxBytes := by
  intro chunks
  induction chunks with
  | nil =>
    intro total out htot h
    simp only [readChunksLoop] at h
    injection h with h2
    subst h2
    exact ⟨rfl, by simpa using htot⟩
  | cons c rest ih =>
    intro total out htot h
    simp only [readChunksLoop] at h
    by_cases hc : maxBytes < total + c.length
    · rw [if_pos hc] at h
      exact absurd h (by simp)
    · rw [if_neg hc] at h
      cases hrec : readChunksLoop maxBytes (total + c.length) rest with
      | ok out2 =>
        rw [hrec] at h
        simp at h
        obtain ⟨ho, hs⟩ := ih (total + c.length) out2 (by omega) hrec
        subst ho
        refine ⟨by rw [← h], ?_⟩
        simp only [List.map_cons, List.sum_cons]
        omega
      | error e =>
        rw [hrec] at h
        exact absurd h (by simp)

theorem readChunksLoop_overflow (maxBytes : Nat) :
    ∀ (chunks : List (List Nat)) (total : Nat),
      total ≤ maxBytes →
      maxBytes < total + (chunks.map List.length).sum →
      ∃ pre c post, chunks = pre ++ c :: post ∧
        total + ((pre.map List.length).sum) ≤ maxBytes ∧
        maxBytes < total + (pre.map List.length).sum + c.length ∧
        ∃ e, readChunksLoop maxBytes total chunks = .error e := by
  intro chunks
  induction chunks with
  | nil =>
    intro total htot h
    simp at h
    omega
  | cons c rest ih =>
    intro total htot h
    by_cases hc : maxBytes < total + c.length
    · refine ⟨[], c, rest, rfl, ?_, ?_, ?_⟩
      · simpa using htot
      · simpa using hc
      · exact ⟨"response body too large", by simp [readChunksLoop, hc]⟩
    · have hrest : maxBytes < (total + c.length) + (rest.map List.length).sum := by
        simp only [List.map_cons, List.sum_cons] at h
        omega
      obtain ⟨pre, c2, post, heq, hpre, hover, e, herr⟩ :=
        ih (total + c.length) (by omega) hrest
      refine ⟨c :: pre, c2, post, by rw [heq, List.cons_append], ?_, ?_, e, ?_⟩
      · simp only [List.map_cons, List.sum_cons]
        omega
      · simp only [List.map_cons, List.sum_cons]
        omega
      · simp [readChunksLoop, hc, herr]

/--
C4: under a byte cap, a finite `Content-Length` above the cap fails before the
body is read; any successful read returns at most `maxBytes` bytes; and a
stream whose total exceeds the cap fails at the first chunk that crosses the
cap — everything accumulated before the failing chunk stays within the cap and
the chunks after it are never read, so the full oversized payload is never
held in memory.
-/
theorem read_limit_never_exceeds_cap (resp : HttpResponse) (maxBytes : Nat) :
    (∀ n, resp.contentLengthHeader = some n → maxBytes < n →
      readResponseBytesWithLimit resp maxBytes = .error "content-length exceeds limit") ∧
    (∀ bytes, readResponseBytesWithLimit resp maxBytes = .ok bytes →
      bytes.length ≤ maxBytes) ∧
    (∀ chunks, resp.body = .streamed chunks →
      maxBytes < (chunks.map List.length).sum →
      ∃ pre c post, chunks = pre ++ c :: post ∧
        (pre.map List.length).sum ≤ maxBytes ∧
        maxBytes < (pre.map List.length).sum + c.length ∧
        ∃ e, readResponseBytesWithLimit resp maxBytes = .error e) := by
  refine ⟨?_, ?_, ?_⟩
  · intro n hn hlt
    simp [readResponseBytesWithLimit, hn, hlt]
  · intro bytes hok
    have hbody : ∀ out, readResponseBytesWithLimit.readResponseBody resp.body maxBytes =
        .ok out → out.length ≤ maxBytes := by
      intro out hout
      cases hb : resp.body with
      | buffered b =>
        rw [hb] at hout
        simp only [readResponseBytesWithLimit.readResponseBody] at hout
        by_cases hlen : maxBytes < b.length
        · rw [if_pos hlen] at hout
          exact absurd hout (by simp)
        · rw [if_neg hlen] at hout
          simp at hout
          subst hout
          omega
      | streamed chunks =>
        rw [hb] at hout
        simp only [readResponseBytesWithLimit.readResponseBody] at hout
        cases hloop : readChunksLoop maxBytes 0 chunks with
        | ok lst =>
          rw [hloop] at hout
          simp at hout
          obtain ⟨ho, hs⟩ := readChunksLoop_ok maxBytes chunks 0 lst (by omega) hloop
          have hflat : lst.flatten.length = (chunks.map List.length).sum := by
            rw [ho]
            simp [List.length_flatten]
          rw [← hout, hflat]
          omega
        | error e =>
          rw [hloop] at hout
          exact absurd hout (by simp)
    cases hcl : resp.contentLengthHeader with
    | none =>
      simp only [readResponseBytesWithLimit, hcl] at hok
      exact hbody bytes hok
    | some n =>
      simp only [readResponseBytesWithLimit, hcl] at hok
      by_cases hlt : maxBytes < n
      · rw [if_pos hlt] at hok
        exact absurd hok (by simp)
      · rw [if_neg hlt] at hok
        exact hbody bytes hok
  · intro chunks hb hover
    obtain ⟨pre, c, post, heq, hpre, hcross, e, herr⟩ :=
      readChunksLoop_overflow maxBytes chunks 0 (by omega) (by omega)
    refine ⟨pre, c, post, heq, by omega, by omega, ?_⟩
    cases hcl : resp.contentLengthHeader with
    | none =>
      refine ⟨e, ?_⟩
      simp [readResponseBytesWithLimit, hcl, readResponseBytesWithLimit.readResponseBody,
        hb, herr]
    | some n =>
      by_cases hlt : maxBytes < n
      · exact ⟨"content-length exceeds limit",
          by simp [readResponseBytesWithLimit, hcl, hlt]⟩
      · refine ⟨e, ?_⟩
        simp [readResponseBytesWithLimit, hcl, hlt,
          readResponseBytesWithLimit.readResponseBody, hb, herr]

/-- Witness for C4: a declared 6-byte body under a 5-byte cap fails up front;
a 2-chunk stream of 4 bytes within the cap returns all 4 bytes; a stream of
2+2+2 bytes against the cap fails at the third chunk with only 4 bytes
accumulated. -/
theorem read_limit_never_exceeds_cap_witness :
    readResponseBytesWithLimit ⟨some 6, .buffered [1, 2, 3, 4, 5, 6]⟩ 5 =
      .error "content-length exceeds limit" ∧
    ([[1, 2], [3, 4]].map List.length).sum ≤ 5 ∧
    readResponseBytesWithLimit
      ⟨none, .streamed [[1, 2], [3, 4], [5, 6]]⟩ 5 = .error "response body too large" := by
  refine ⟨?_, by decide, by rfl⟩
  exact (read_limit_never_exceeds_cap ⟨some 6, .buffered [1, 2, 3, 4, 5, 6]⟩ 5).1 6 rfl
    (by decide)

/-! ## SSRF-safe URL validation (`isPrivateIp` / `validateExternalUrl`, src/unnamed/part_005) -/

/-- Classification of a host string by `net.isIP`: valid IPv4 literal, valid
IPv6 literal, or not an IP literal. -/
inductive IpClass where
  | v4
  | v6
  | notIp
deriving Repr, DecidableEq

/-- `parseInt(x, 10)` on a dotted-quad component: the value of the leading
digit run, or `none` for NaN.  (The whitespace/sign cases of `parseInt` cannot
arise for components of an IP literal or of the digits-and-dots capture.) -/
def parseIntDigits (s : String) : Option Nat :=
  let digits := s.data.takeWhile Char.isDigit
  if digits = [] then none
  else some (digits.foldl (fun n c => n * 10 + (c.toNat - 48)) 0)

/-- The IPv4 range checks of `isPrivateIp` on the first two parsed octets, in
source order: 10/8, 127/8, 0/8, 169.254/16, 172.16/12, 192.168/16,
100.64/10 (CGNAT), and ≥ 224 (multicast/reserved). -/
def isPrivateV4Pair (a b : Nat) : Bool :=
  if a = 10 then true
  else if a = 127 then true
  else if a = 0 then true
  else if a = 169 ∧ b = 254 then true
  else if a = 172 ∧ 16 ≤ b ∧ b ≤ 31 then true
  else if a = 192 ∧ b = 168 then true
  else if a = 100 ∧ 64 ≤ b ∧ b ≤ 127 then true
  else if 224 ≤ a then true
  else false

/-- The IPv4 branch of `isPrivateIp`: split on dots, `parseInt` the leading
components, treat NaN as private, then apply the range checks.  (`net.isIP`
returning 4 guarantees four components, so the catch-all only models the
NaN guard.) -/
def isPrivateIpV4Str (ip : String) : Bool :=
  match (jsSplitChar ip '.').map parseIntDigits with
  | some a :: some b :: _ => isPrivateV4Pair a b
  | _ => true

/-- Numeric value of a digit run. -/
def octetVal (l : List Char) : Nat := l.foldl (fun n c => n * 10 + (c.toNat - 48)) 0

/-- One dotted component as `net.isIP` accepts it: 1–3 digits, no leading
zero except "0" itself, value at most 255. -/
def validV4Octet (l : List Char) : Bool :=
  !l.isEmpty && decide (l.length ≤ 3) && l.all Char.isDigit &&
    (decide (l.head? ≠ some '0') || decide (l = ['0'])) &&
    decide (octetVal l ≤ 255)

/-- Model of `net.isIP(s) === 4`: four valid dotted octets. -/
def isValidIpV4 (s : String) : Bool :=
  let parts := splitOnCharAux '.' s.data []
  decide (parts.length = 4) && parts.all validV4Octet

/-- Shape required of the capture of `^::ffff:(\d+\.\d+\.\d+\.\d+)$`: four
nonempty digit runs separated by dots. -/
def quadShape (parts : List (List Char)) : Bool :=
  decide (parts.length = 4) && parts.all (fun p => !p.isEmpty && p.all Char.isDigit)

/-- The capture of the IPv4-mapped-IPv6 regex: the remainder after the
`::ffff:` literal, when it is a digits-and-dots quad. -/
def v4MappedPart (s : String) : Option String :=
  if jsStartsWith s "::ffff:" then
    let rest : String := String.mk (s.data.drop 7)
    if quadShape (splitOnCharAux '.' rest.data []) then some rest else none
  else none

/--
Embedding of `isPrivateIp`.  `cls` supplies `net.isIP`'s classification of
`ip`; the recursive call on an IPv4-mapped capture (digits and dots, hence
never IPv6) is classified by the executable `isValidIpV4` model of `net.isIP`,
exactly mirroring `return isPrivateIp(v4Mapped[1])`.
-/
def isPrivateIp (ip : String) (cls : IpClass) : Bool :=
  match cls with
  | .v4 => isPrivateIpV4Str ip
  | .v6 =>
    let normalized := jsToLower ip
    if normalized = "::" ∨ normalized = "::1" then true
    else if jsStartsWith normalized "fe80:" then true
    else if jsStartsWith normalized "fc" || jsStartsWith normalized "fd" then true
    else
      match v4MappedPart normalized with
      | some quad => if isValidIpV4 quad then isPrivateIpV4Str quad else true
      | none => false
  | .notIp => true

/-- Parsed URL fields consumed by `validateExternalUrl`; the caller supplies
`none` when `new URL(...)` throws. -/
structure UrlParts where
  protocol : String
  hostname : String
deriving Repr, DecidableEq

/--
Embedding of `validateExternalUrl`.  `cls` models `net.isIP(hostname)` and
`resolved` models `dns.lookup(hostname, { all: true })`, each address paired
with its own `net.isIP` class.  Everything happens before any network fetch:
the function either errors or returns the URL for the caller to fetch.
-/
def validateExternalUrl (parsedUrl : Option UrlParts) (cls : IpClass)
    (resolved : List (String × IpClass)) : Except String UrlParts :=
  match parsedUrl with
  | none => .error "invalid URL"
  | some url =>
    let protocol := jsToLower url.protocol
    if protocol ≠ "http:" ∧ protocol ≠ "https:" then .error "only http or https URLs"
    else if url.hostname = "" then .error "invalid URL hostname"
    else
      let lowerHost := jsToLower url.hostname
      if lowerHost = "localhost" ∨ jsEndsWith lowerHost ".localhost" = true ∨
          jsEndsWith lowerHost ".local" = true then
        .error "local hostnames forbidden"
      else if cls ≠ .notIp then
        if isPrivateIp url.hostname cls then .error "private or local IP forbidden"
        else .ok url
      else if resolved.isEmpty then .error "DNS resolution failed"
      else if resolved.any (fun a => isPrivateIp a.1 a.2) then
        .error "domain resolves to private or local address"
      else .ok url

/-- Is the result an error? -/
def exceptIsError {ε α : Type} : Except ε α → Bool
  | .error _ => true
  | .ok _ => false

/-- The IPv4 ranges named by the claim — private (10/8, 172.16/12,
192.168/16), loopback (127/8), link-local (169.254/16), CGNAT (100.64/10) and
multicast (224.0.0.0 and up) — on the first two octets. -/
def specPrivateV4Range (a b : Nat) : Prop :=
  a = 10 ∨ (a = 172 ∧ 16 ≤ b ∧ b ≤ 31) ∨ (a = 192 ∧ b = 168) ∨ a = 127 ∨
    (a = 169 ∧ b = 254) ∨ (a = 100 ∧ 64 ≤ b ∧ b ≤ 127) ∨ 224 ≤ a

/--
The claim's rejection conditions, written from the spec's words for the
refinement comparison: scheme not http/https; hostname `localhost`,
`*.localhost` or `*.local`; a literal IPv4 in the named ranges; a literal
IPv6 that is loopback, link-local, unique-local, or an IPv4-mapped address
whose quad falls in the named ranges; or a domain one of whose DNS-resolved
addresses is private/reserved.
-/
def specRejectsUrl (url : UrlParts) (cls : IpClass)
    (resolved : List (String × IpClass)) : Prop :=
  (jsToLower url.protocol ≠ "http:" ∧ jsToLower url.protocol ≠ "https:") ∨
  (jsToLower url.hostname = "localhost" ∨
    jsEndsWith (jsToLower url.hostname) ".localhost" = true ∨
    jsEndsWith (jsToLower url.hostname) ".local" = true) ∨
  (cls = .v4 ∧ ∃ a b rest,
    (jsSplitChar url.hostname '.').map parseIntDigits = some a :: some b :: rest ∧
    specPrivateV4Range a b) ∨
  (cls = .v6 ∧
    (jsToLower url.hostname = "::1" ∨
      jsStartsWith (jsToLower url.hostname) "fe80:" = true ∨
      jsStartsWith (jsToLower url.hostname) "fc" = true ∨
      jsStartsWith (jsToLower url.hostname) "fd" = true ∨
      ∃ quad, v4MappedPart (jsToLower url.hostname) = some quad ∧
        isValidIpV4 quad = true ∧
        ∃ a b rest, (jsSplitChar quad '.').map parseIntDigits = some a :: some b :: rest ∧
          specPrivateV4Range a b)) ∨
  (cls = .notIp ∧ ∃ p ∈ resolved, isPrivateIp p.1 p.2 = true)

theorem isPrivateV4Pair_of_spec (a b : Nat) (h : specPrivateV4Range a b) :
    isPrivateV4Pair a b = true := by
  unfold specPrivateV4Range at h
  unfold isPrivateV4Pair
  split_ifs <;> first | rfl | (exfalso; tauto)

theorem isPrivateIpV4Str_of_spec (ip : String) (a b : Nat) (rest : List (Option Nat))
    (hparse : (jsSplitChar ip '.').map parseIntDigits = some a :: some b :: rest)
    (hrange : specPrivateV4Range a b) :
    isPrivateIpV4Str ip = true := by
  unfold isPrivateIpV4Str
  rw [hparse]
  exact isPrivateV4Pair_of_spec a b hrange

theorem isPrivateIp_v6_of_spec (ip : String)
    (h : jsToLower ip = "::1" ∨
      jsStartsWith (jsToLower ip) "fe80:" = true ∨
      jsStartsWith (jsToLower ip) "fc" = true ∨
      jsStartsWith (jsToLower ip) "fd" = true ∨
      ∃ quad, v4MappedPart (jsToLower ip) = some quad ∧ isValidIpV4 quad = true ∧
        ∃ a b rest, (jsSplitChar quad '.').map parseIntDigits = some a :: some b :: rest ∧
          specPrivateV4Range a b) :
    isPrivateIp ip IpClass.v6 = true := by
  simp only [isPrivateIp]
  by_cases h1 : jsToLower ip = "::" ∨ jsToLower ip = "::1"
  · simp [h1]
  · rw [if_neg h1]
    by_cases h2 : jsStartsWith (jsToLower ip) "fe80:" = true
    · simp [h2]
    · rw [if_neg (by simpa using h2)]
      by_cases h3 : (jsStartsWith (jsToLower ip) "fc" || jsStartsWith (jsToLower ip) "fd") = true
      · simp [h3]
      · rw [if_neg (by simpa using h3)]
        rcases h with h | h | h | h | ⟨quad, hq, hvalid, a, b, rest, hparse, hrange⟩
        · exact absurd (Or.inr h) h1
        · exact absurd h h2
        · exact absurd (by simp [h]) h3
        · exact absurd (by simp [h]) h3
        · rw [hq]
          simp [hvalid, isPrivateIpV4Str_of_spec quad a b rest hparse hrange]

/--
C3: every remotely supplied image URL meeting one of the claim's rejection
conditions — wrong scheme, localhost-like hostname, a literal IP in the
private / loopback / link-local / CGNAT / multicast ranges (including
IPv4-mapped IPv6 after unwrapping), or a domain with a private DNS resolution
— is rejected by `validateExternalUrl` before any network request: the
validator returns an error, so no URL is handed to the fetch layer.
-/
theorem validateExternalUrl_rejects (url : UrlParts) (cls : IpClass)
    (resolved : List (String × IpClass)) (h : specRejectsUrl url cls resolved) :
    exceptIsError (validateExternalUrl (some url) cls resolved) = true := by
  by_cases hp : jsToLower url.protocol ≠ "http:" ∧ jsToLower url.protocol ≠ "https:"
  · simp [validateExternalUrl, hp, exceptIsError]
  · by_cases hhost : url.hostname = ""
    · simp [validateExternalUrl, hp, hhost, exceptIsError]
    · by_cases hloc : jsToLower url.hostname = "localhost" ∨
        jsEndsWith (jsToLower url.hostname) ".localhost" = true ∨
        jsEndsWith (jsToLower url.hostname) ".local" = true
      · simp only [validateExternalUrl]
        rw [if_neg hp, if_neg hhost, if_pos hloc]
        rfl
      · rcases h with h | h | ⟨hcls, a, b, rest, hparse, hrange⟩ | ⟨hcls, hv6⟩ |
          ⟨hcls, p, hmem, hpriv⟩
        · exact absurd h hp
        · exact absurd h hloc
        · subst hcls
          simp only [validateExternalUrl]
          rw [if_neg hp, if_neg hhost, if_neg hloc,
            if_pos (by simp : (IpClass.v4 ≠ IpClass.notIp)),
            if_pos (by simpa using isPrivateIpV4Str_of_spec url.hostname a b rest hparse hrange)]
          rfl
        · subst hcls
          simp only [validateExternalUrl]
          rw [if_neg hp, if_neg hhost, if_neg hloc,
            if_pos (by simp : (IpClass.v6 ≠ IpClass.notIp)),
            if_pos (by simpa using isPrivateIp_v6_of_spec url.hostname hv6)]
          rfl
        · subst hcls
          have hne : resolved.isEmpty = false := by
            cases resolved with
            | nil => simp at hmem
            | cons q rest2 => rfl
          have hany : (resolved.any (fun a => isPrivateIp a.1 a.2)) = true := by
            rw [List.any_eq_true]
            exact ⟨p, hmem, hpriv⟩
          simp only [validateExternalUrl]
          rw [if_neg hp, if_neg hhost, if_neg hloc,
            if_neg (by simp : ¬ (IpClass.notIp ≠ IpClass.notIp)),
            if_neg (by simp [hne]), if_pos hany]
          rfl

/-- Witness for C3 at concrete inputs: the literal private IPv4 `10.0.0.5`,
the loopback IPv6 `::1`, the IPv4-mapped `::ffff:127.0.0.1`, the hostname
`localhost`, a bad scheme, and a domain resolving to `169.254.0.1` are all
rejected. -/
theorem validateExternalUrl_rejects_witness :
    exceptIsError (validateExternalUrl (some ⟨"http:", "10.0.0.5"⟩) IpClass.v4 []) = true ∧
    exceptIsError (validateExternalUrl (some ⟨"https:", "::1"⟩) IpClass.v6 []) = true ∧
    exceptIsError
      (validateExternalUrl (some ⟨"https:", "::ffff:127.0.0.1"⟩) IpClass.v6 []) = true ∧
    exceptIsError (validateExternalUrl (some ⟨"http:", "localhost"⟩) IpClass.notIp []) = true ∧
    exceptIsError (validateExternalUrl (some ⟨"ftp:", "example.com"⟩) IpClass.notIp []) = true ∧
    exceptIsError (validateExternalUrl (some ⟨"http:", "evil.example"⟩) IpClass.notIp
      [("169.254.0.1", IpClass.v4)]) = true := by
  refine ⟨?_, ?_, ?_, ?_, ?_, ?_⟩
  · exact validateExternalUrl_rejects ⟨"http:", "10.0.0.5"⟩ .v4 []
      (Or.inr (Or.inr (Or.inl ⟨rfl, 10, 0, [some 0, some 5], by decide,
        Or.inl rfl⟩)))
  · exact validateExternalUrl_rejects ⟨"https:", "::1"⟩ .v6 []
      (Or.inr (Or.inr (Or.inr (Or.inl ⟨rfl, Or.inl (by decide)⟩))))
  · exact validateExternalUrl_rejects ⟨"https:", "::ffff:127.0.0.1"⟩ .v6 []
      (Or.inr (Or.inr (Or.inr (Or.inl ⟨rfl,
        Or.inr (Or.inr (Or.inr (Or.inr ⟨"127.0.0.1", by decide, by decide,
          127, 0, [some 0, some 1], by decide, Or.inr (Or.inr (Or.inr (Or.inl rfl)))⟩)))⟩))))
  · exact validateExternalUrl_rejects ⟨"http:", "localhost"⟩ .notIp []
      (Or.inr (Or.inl (Or.inl (by decide))))
  · exact validateExternalUrl_rejects ⟨"ftp:", "example.com"⟩ .notIp []
      (Or.inl (by decide))
  · exact validateExternalUrl_rejects ⟨"http:", "evil.example"⟩ .notIp
      [("169.254.0.1", IpClass.v4)]
      (Or.inr (Or.inr (Or.inr (Or.inr ⟨rfl, ("169.254.0.1", IpClass.v4),
        List.mem_singleton.2 rfl, by decide⟩))))

/-! ## Pairing codes (`verifyPairingCode`, src/src/pairing.ts) and the pairing
API handler (`handlePairingApi`, src/unnamed/part_002, first revision) -/

/-- Pairing-code lifetime: 5 minutes. -/
def CODE_EXPIRY_MS : Nat := 5 * 60 * 1000

/-- A pending pairing code awaiting verification. -/
structure PendingCode where
  openId : String
  accountId : String
  createdAt : Nat
deriving Repr, DecidableEq

/-- A paired-user record. -/
structure PairedUser where
  pairedAt : Nat
  pairedBy : String
  pairedByName : Option String
  pairedByChannel : Option String
deriving Repr, DecidableEq

/-- The two JSON files behind the pairing module (pending codes and paired
users), passed explicitly in place of disk I/O. -/
structure PairingStore where
  pendingCodes : List (String × PendingCode)
  pairedUsers : List (String × PairedUser)
deriving Repr, DecidableEq

/-- Embedding of `loadPendingCodes`: parse the file and keep only codes with
`now - info.createdAt < CODE_EXPIRY_MS` (JS negative differences and `Nat`
truncated subtraction agree: both keep a future-dated code). -/
def loadPendingCodes (codes : List (String × PendingCode)) (now : Nat) :
    List (String × PendingCode) :=
  codes.filter (fun e => now - e.2.createdAt < CODE_EXPIRY_MS)

/--
Embedding of `verifyPairingCode`: load the (expiry-filtered) pending codes;
an unknown code fails with the store untouched; a known but over-age code is
deleted and fails; otherwise the subject is recorded as paired, the used code
is deleted, and the code's bound `(accountId, openId)` is returned.
-/
def verifyPairingCode (store : PairingStore) (now : Nat) (code userId : String)
    (userName channel : Option String) :
    Option (String × String) × PairingStore :=
  let codes := loadPendingCodes store.pendingCodes now
  match assocLookup codes code with
  | none => (none, store)
  | some info =>
    if CODE_EXPIRY_MS < now - info.createdAt then
      (none, { store with pendingCodes := assocRemove codes code })
    else
      let userKey := getUserKey info.accountId info.openId
      let users := assocSet store.pairedUsers userKey ⟨now, userId, userName, channel⟩
      (some (info.accountId, info.openId),
       { pendingCodes := assocRemove codes code, pairedUsers := users })

/-- Outcome of reading and JSON-parsing a request body. -/
inductive ReqBodyOutcome (β : Type) where
  | readError (tooLarge : Bool)
  | parseError
  | parsed (b : β)
deriving Repr, DecidableEq

/-- Body of the first-revision pairing API:
`{ code, userId, userName?, channel?, token }`. -/
structure PairingApiV1Body where
  code : Option String
  userId : Option String
  userName : Option String
  channel : Option String
  token : Option String
deriving Repr, DecidableEq

/-- Response of the first-revision pairing API handler (the fields the
source writes). -/
structure PairingApiV1Response where
  status : Nat
  retryAfter : Option Nat
  openId : Option String
  error : Option String
deriving Repr, DecidableEq

/-- Embedding of the webhook-handler revision of `timingSafeEqualString`:
byte-length check, then `crypto.timingSafeEqual` on the (equal-length)
buffers — i.e. equality of the underlying data. -/
def timingSafeEqualStringWebhook (a b : String) : Bool :=
  decide (a.data.length = b.data.length) && decide (a.data = b.data)

/--
Embedding of `handlePairingApi` (first revision): rate limit, body read and
JSON parse, token gate (the per-account `getPairingApiToken` registry is
itself part of the newer pairing.ts, not under src/, so the configured token
arrives as `expectedToken` — modelled from the spec: the endpoint is disabled
with 404 when no token is explicitly configured), required fields, then
`verifyPairingCode`: 200 with the bound subject's `openId` on success, 400
"Invalid or expired code" otherwise.
-/
def handlePairingApi
    (rateTable : List (String × RateBucket)) (ip : String) (now : Nat)
    (expectedToken : Option String)
    (body : ReqBodyOutcome PairingApiV1Body)
    (store : PairingStore) : PairingApiV1Response × PairingStore :=
  match (checkPairingApiRateLimit rateTable ip now).1 with
  | .tooMany r => (⟨429, some r, none, some "Too Many Requests"⟩, store)
  | .ok =>
    match body with
    | .readError tooLarge =>
      (⟨if tooLarge then 413 else 400, none, none, some "Bad Request"⟩, store)
    | .parseError => (⟨400, none, none, some "Invalid JSON"⟩, store)
    | .parsed b =>
      if strTruthy expectedToken = false then (⟨404, none, none, some "Not Found"⟩, store)
      else if ¬ strTruthy b.token ∨
          timingSafeEqualStringWebhook (b.token.getD "") (expectedToken.getD "") = false then
        (⟨401, none, none, some "Unauthorized"⟩, store)
      else if ¬ strTruthy b.code ∨ ¬ strTruthy b.userId then
        (⟨400, none, none, some "Missing code or userId"⟩, store)
      else
        let vr := verifyPairingCode store now (b.code.getD "") (b.userId.getD "")
          b.userName b.channel
        match vr.1 with
        | some r => (⟨200, none, some r.2, none⟩, vr.2)
        | none => (⟨400, none, none, some "Invalid or expired code"⟩, vr.2)

theorem assocLookup_filter_none {β : Type} (l : List (String × β)) (k : String)
    (p : String × β → Bool) (h : assocLookup l k = none) :
    assocLookup (l.filter p) k = none := by
  unfold assocLookup at h ⊢
  cases hf : List.find? (fun e => e.1 = k) l with
  | some e => rw [hf] at h; simp at h
  | none =>
    have hall := List.find?_eq_none.1 hf
    have : List.find? (fun e => decide (e.1 = k)) (l.filter p) = none := by
      rw [List.find?_eq_none]
      intro x hx
      exact hall x (List.mem_of_mem_filter hx)
    rw [this]

theorem assocLookup_filter_none_of_all {β : Type} (l : List (String × β)) (k : String)
    (p : String × β → Bool) (h : ∀ e ∈ l, e.1 = k → p e = false) :
    assocLookup (l.filter p) k = none := by
  unfold assocLookup
  have : List.find? (fun e => decide (e.1 = k)) (l.filter p) = none := by
    rw [List.find?_eq_none]
    intro x hx hk
    have hmem := List.mem_of_mem_filter hx
    have hp := List.of_mem_filter hx
    have : p x = false := h x hmem (by simpa using hk)
    rw [this] at hp
    exact absurd hp (by simp)
  rw [this]

/--
C9: with a correct token and a valid, unexpired pairing code, the pairing API
answers 200 carrying the bound subject's `openId` while `verifyPairingCode`
returns the code's bound `(accountId, openId)` pair; the verified code is
deleted from the store, so re-submitting it afterwards (at any later time)
answers 400 "Invalid or expired code"; and a code strictly older than the
5-minute expiry always verifies as invalid.
-/
theorem pairing_code_single_use
    (rateTable : List (String × RateBucket)) (ip : String) (now now2 : Nat)
    (et code userId : String) (userName channel : Option String)
    (store : PairingStore) (info : PendingCode)
    (hrate : (checkPairingApiRateLimit rateTable ip now).1 = RateResult.ok)
    (hrate2 : (checkPairingApiRateLimit rateTable ip now2).1 = RateResult.ok)
    (het : et ≠ "")
    (hcode : code ≠ "") (huser : userId ≠ "")
    (hfound : assocLookup (loadPendingCodes store.pendingCodes now) code = some info)
    (hfresh : ¬ CODE_EXPIRY_MS < now - info.createdAt) :
    (handlePairingApi rateTable ip now (some et)
        (.parsed ⟨some code, some userId, userName, channel, some et⟩) store).1 =
      ⟨200, none, some info.openId, none⟩ ∧
    (verifyPairingCode store now code userId userName channel).1 =
      some (info.accountId, info.openId) ∧
    assocLookup (handlePairingApi rateTable ip now (some et)
        (.parsed ⟨some code, some userId, userName, channel, some et⟩) store).2.pendingCodes
      code = none ∧
    (handlePairingApi rateTable ip now2 (some et)
        (.parsed ⟨some code, some userId, userName, channel, some et⟩)
        (handlePairingApi rateTable ip now (some et)
          (.parsed ⟨some code, some userId, userName, channel, some et⟩) store).2).1 =
      ⟨400, none, none, some "Invalid or expired code"⟩ ∧
    (∀ (store2 : PairingStore) (now3 : Nat),
      (∀ e ∈ store2.pendingCodes, e.1 = code →
        CODE_EXPIRY_MS < now3 - e.2.createdAt) →
      (verifyPairingCode store2 now3 code userId userName channel).1 = none) := by
  have hverify : verifyPairingCode store now code userId userName channel =
      (some (info.accountId, info.openId),
       { pendingCodes := assocRemove (loadPendingCodes store.pendingCodes now) code,
         pairedUsers := assocSet store.pairedUsers (getUserKey info.accountId info.openId)
           ⟨now, userId, userName, channel⟩ }) := by
    simp only [verifyPairingCode, hfound]
    rw [if_neg hfresh]
  have htok : timingSafeEqualStringWebhook et et = true := by
    simp [timingSafeEqualStringWebhook]
  have hhandler1 : handlePairingApi rateTable ip now (some et)
      (.parsed ⟨some code, some userId, userName, channel, some et⟩) store =
      (⟨200, none, some info.openId, none⟩,
       { pendingCodes := assocRemove (loadPendingCodes store.pendingCodes now) code,
         pairedUsers := assocSet store.pairedUsers (getUserKey info.accountId info.openId)
           ⟨now, userId, userName, channel⟩ }) := by
    simp only [handlePairingApi, hrate]
    rw [if_neg (by simp [strTruthy, het])]
    rw [if_neg (by simp [strTruthy, het, htok])]
    rw [if_neg (by simp [strTruthy, hcode, huser])]
    simp only [Option.getD, hverify]
  have hremoved : assocLookup (assocRemove (loadPendingCodes store.pendingCodes now) code)
      code = none := assocLookup_remove _ _
  have hexpired : ∀ (store2 : PairingStore) (now3 : Nat),
      (∀ e ∈ store2.pendingCodes, e.1 = code →
        CODE_EXPIRY_MS < now3 - e.2.createdAt) →
      (verifyPairingCode store2 now3 code userId userName channel).1 = none := by
    intro store2 now3 hall
    have hnone : assocLookup (loadPendingCodes store2.pendingCodes now3) code = none := by
      refine assocLookup_filter_none_of_all _ _ _ ?_
      intro e he hk
      have := hall e he hk
      simp only [decide_eq_false_iff_not]
      omega
    simp [verifyPairingCode, hnone]
  refine ⟨by rw [hhandler1], by rw [hverify], ?_, ?_, hexpired⟩
  · rw [hhandler1]
    exact hremoved
  · rw [hhandler1]
    have hnone2 : assocLookup (loadPendingCodes
        (assocRemove (loadPendingCodes store.pendingCodes now) code) now2) code = none :=
      assocLookup_filter_none _ _ _ hremoved
    simp only [handlePairingApi, hrate2]
    rw [if_neg (by simp [strTruthy, het])]
    rw [if_neg (by simp [strTruthy, het, htok])]
    rw [if_neg (by simp [strTruthy, hcode, huser])]
    simp only [Option.getD]
    simp [verifyPairingCode, hnone2]

/-- Witness for C9 at a concrete run: code "123456" bound to
`(acct, user-1)`, created at t = 0, verified at t = 60 000 (valid), then
re-submitted at t = 61 000 (rejected). -/
theorem pairing_code_single_use_witness :
    (handlePairingApi [] "1.2.3.4" 60000 (some "tok")
        (.parsed ⟨some "123456", some "u", none, none, some "tok"⟩)
        ⟨[("123456", ⟨"user-1", "acct", 0⟩)], []⟩).1 =
      ⟨200, none, some "user-1", none⟩ ∧
    (handlePairingApi [] "1.2.3.4" 61000 (some "tok")
        (.parsed ⟨some "123456", some "u", none, none, some "tok"⟩)
        (handlePairingApi [] "1.2.3.4" 60000 (some "tok")
          (.parsed ⟨some "123456", some "u", none, none, some "tok"⟩)
          ⟨[("123456", ⟨"user-1", "acct", 0⟩)], []⟩).2).1 =
      ⟨400, none, none, some "Invalid or expired code"⟩ := by
  have h := pairing_code_single_use [] "1.2.3.4" 60000 61000 "tok" "123456" "u" none none
    ⟨[("123456", ⟨"user-1", "acct", 0⟩)], []⟩ ⟨"user-1", "acct", 0⟩
    (by rfl) (by rfl) (by decide) (by decide) (by decide) (by rfl) (by decide)
  exact ⟨h.1, h.2.2.2.1⟩

/-! ## Multi-account pairing API (`handlePairingApiMulti`, src/src/pairing.ts) -/

/-- Embedding of `timingSafeEqualString` (pairing-api revision): build the
byte buffers, zero-pad both to the longer length, and require equal original
lengths together with `crypto.timingSafeEqual` on the padded buffers. -/
def timingSafeEqualString (a b : String) : Bool :=
  let ba := a.data
  let bb := b.data
  let maxLen := Nat.max ba.length bb.length
  decide (ba.length = bb.length) &&
    decide (ba ++ List.replicate (maxLen - ba.length) (Char.ofNat 0) =
            bb ++ List.replicate (maxLen - bb.length) (Char.ofNat 0))

theorem timingSafeEqualString_iff (a b : String) :
    timingSafeEqualString a b = true ↔ a = b := by
  simp only [timingSafeEqualString, Bool.and_eq_true, decide_eq_true_eq]
  constructor
  · rintro ⟨hlen, hpad⟩
    have hrep : List.replicate (Nat.max a.data.length b.data.length - a.data.length)
        (Char.ofNat 0) = List.replicate (Nat.max a.data.length b.data.length
          - b.data.length) (Char.ofNat 0) := by
      rw [hlen]
    rw [hrep] at hpad
    have hdata := List.append_inj_left hpad (by omega)
    exact congrArg String.mk hdata
  · intro h
    subst h
    exact ⟨rfl, rfl⟩

/-- Consume `[0-9;]*m`, the tail of an ANSI color sequence, returning the
remainder after the `m`. -/
def munchAnsiBody : List Char → Option (List Char)
  | [] => none
  | c :: rest =>
    if c = 'm' then some rest
    else if c.isDigit || c = ';' then munchAnsiBody rest
    else none

theorem munchAnsiBody_length :
    ∀ (l r : List Char), munchAnsiBody l = some r → r.length < l.length := by
  intro l
  induction l with
  | nil => intro r h; simp [munchAnsiBody] at h
  | cons c rest ih =>
    intro r h
    simp only [munchAnsiBody] at h
    by_cases hm : c = 'm'
    · rw [if_pos hm] at h
      injection h with h2
      subst h2
      simp
    · rw [if_neg hm] at h
      by_cases hd : (c.isDigit || c = ';') = true
      · rw [if_pos hd] at h
        have := ih r h
        simp only [List.length_cons]
        omega
      · rw [if_neg hd] at h
        exact absurd h (by simp)

/-- Try to consume one full ANSI sequence after an escape character:
`[` then `[0-9;]*m`. -/
def tryAnsiSeq : List Char → Option (List Char)
  | [] => none
  | c :: body => if c = '[' then munchAnsiBody body else none

theorem tryAnsiSeq_length :
    ∀ (l r : List Char), tryAnsiSeq l = some r → r.length < l.length := by
  intro l r h
  match l with
  | [] => simp [tryAnsiSeq] at h
  | c :: body =>
    by_cases hc : c = '['
    · simp only [tryAnsiSeq, if_pos hc] at h
      have := munchAnsiBody_length body r h
      simp only [List.length_cons]
      omega
    · simp only [tryAnsiSeq, if_neg hc] at h
      exact absurd h (by simp)

/-- Model of `stripAnsi` (`text.replace(/\u001b\[[0-9;]*m/gu, "")`): remove
every ANSI color sequence; an escape that does not begin a full sequence is
kept and scanning resumes at the next character, exactly as global regex
replacement does. -/
def stripAnsiChars : List Char → List Char
  | [] => []
  | c :: rest =>
    if c = Char.ofNat 27 then
      match h : tryAnsiSeq rest with
      | some rem => stripAnsiChars rem
      | none => c :: stripAnsiChars rest
    else c :: stripAnsiChars rest
termination_by l => l.length
decreasing_by
  · simp only [List.length_cons]
    have := tryAnsiSeq_length rest rem h
    omega
  · simp only [List.length_cons]
    omega
  · simp only [List.length_cons]
    omega

theorem stripAnsiChars_no_esc :
    ∀ (l : List Char), (∀ c ∈ l, ¬ c = Char.ofNat 27) → stripAnsiChars l = l := by
  intro l
  induction l with
  | nil => intro _; rw [stripAnsiChars]
  | cons c rest ih =>
    intro h
    have hc : ¬ c = Char.ofNat 27 := h c (List.mem_cons_self _ _)
    rw [stripAnsiChars]
    rw [if_neg hc, ih (fun x hx => h x (List.mem_cons_of_mem _ hx))]

/-- JS `\s` on the characters arising here. -/
def jsIsSpace (c : Char) : Bool := c.isWhitespace

/-- Try to match `sender\s+([^\s.]+)\.` (case-insensitive) at the head of the
list, returning the capture. -/
def matchSenderAt (l : List Char) : Option (List Char) :=
  let kw := l.take 6
  if kw.length = 6 ∧ (kw.zip "sender".data).all (fun p => p.1.toLower = p.2) then
    let afterKw := l.drop 6
    let ws := afterKw.takeWhile jsIsSpace
    if ws.isEmpty then none
    else
      let rest2 := afterKw.drop ws.length
      let cap := rest2.takeWhile (fun c => !jsIsSpace c && !(c = '.'))
      if cap.isEmpty then none
      else if (rest2.drop cap.length).head? = some '.' then some cap
      else none
  else none

/-- Scan for the first position where `sender\s+([^\s.]+)\.` matches. -/
def findSenderCapture : List Char → Option (List Char)
  | [] => none
  | c :: rest =>
    match matchSenderAt (c :: rest) with
    | some cap => some cap
    | none => findSenderCapture rest

/-- Embedding of `extractApprovedSenderId`: strip ANSI sequences from
`stdout + "\n" + stderr`, search `/sender\s+([^\s.]+)\./i`, and trim the
capture. -/
def extractApprovedSenderId (stdout stderr : String) : Option String :=
  (findSenderCapture (stripAnsiChars (stdout ++ "\n" ++ stderr).data)).map
    (fun cap => jsTrim (String.mk cap))

/-- Modelled from the spec: `parseSubjectId` lives in the newer pairing.ts,
which is not under src/; a subject id is the composite `accountId:openId`, so
split at the first colon. -/
def parseSubjectId (s : String) : Option (String × String) :=
  match jsSplitChar s ':' with
  | a :: b :: rest => some (a, String.intercalate ":" (b :: rest))
  | _ => none

/-- Modelled from the spec: the per-account pairing-API token registry
(`setPairingApiToken` / `getPairingApiToken(accountId)` in the newer
pairing.ts, not under src/); the endpoint is enabled only for accounts with
an explicitly configured token. -/
def getPairingApiToken (tokens : List (String × String)) (accountId : String) :
    Option String :=
  assocLookup tokens accountId

/-- Is a (truthy) pairing token configured for the account? -/
def tokenConfigured (tokens : List (String × String)) (accountId : String) : Bool :=
  strTruthy (getPairingApiToken tokens accountId)

/-- Embedding of `findAccountByToken`: walk the candidate accounts, skip the
ones without a configured token, note that at least one was configured, and
return the first whose token matches in constant time. -/
def findAccountByToken (tokens : List (String × String)) (token : String) :
    List String → Option String × Bool
  | [] => (none, false)
  | a :: rest =>
    match getPairingApiToken tokens a with
    | none => findAccountByToken tokens token rest
    | some expected =>
      if expected = "" then findAccountByToken tokens token rest
      else if timingSafeEqualString token expected then (some a, true)
      else ((findAccountByToken tokens token rest).1, true)

/-- Result of the external `openclaw pairing approve` command
(`runCommandWithTimeout`); `exitCode = none` models a `null` exit code. -/
structure CmdResult where
  stdout : String
  stderr : String
  exitCode : Option Int
deriving Repr, DecidableEq

/-- Body of the multi-account pairing API: `{ code, token }`. -/
structure PairingApiBody where
  code : Option String
  token : Option String
deriving Repr, DecidableEq

/-- Response of the multi-account pairing API handler. -/
structure PairingApiResponse where
  status : Nat
  retryAfter : Option Nat
  success : Bool
  idField : Option String
  accountId : Option String
  openId : Option String
  error : Option String
deriving Repr, DecidableEq

/-- The 200 response: extract the approved sender id from the command output
and parse it into `accountId` / `openId`. -/
def pairingSuccessResponse (result : CmdResult) : PairingApiResponse :=
  let approvedId := extractApprovedSenderId result.stdout result.stderr
  let parsed := approvedId.bind parseSubjectId
  ⟨200, none, true, approvedId, parsed.map Prod.fst, parsed.map Prod.snd, none⟩

/--
Embedding of `handlePairingApiMulti`: rate limit (429 + Retry-After), body
read (413/400) and JSON parse (400), token resolution over the candidate
accounts — 404 when no account has a configured token (fail closed), 401 on a
missing or mismatched token — then the required `code` field (400), the
runtime capability (501), the trimmed/uppercased code (400), the external
approval command (400 on a nonzero exit), and finally 200 with the approved
subject's parsed `accountId` / `openId`.  `runCmd` is the outcome of the
external command (`none` when the runtime lacks `runCommandWithTimeout`).
-/
def handlePairingApiMulti
    (rateTable : List (String × RateBucket)) (ip : String) (now : Nat)
    (accounts : List String) (tokens : List (String × String))
    (body : ReqBodyOutcome PairingApiBody)
    (runCmd : Option CmdResult) : PairingApiResponse :=
  match (checkPairingApiRateLimit rateTable ip now).1 with
  | .tooMany r => ⟨429, some r, false, none, none, none, some "Too Many Requests"⟩
  | .ok =>
    match body with
    | .readError tooLarge =>
      ⟨if tooLarge then 413 else 400, none, false, none, none, none, some "Bad Request"⟩
    | .parseError => ⟨400, none, false, none, none, none, some "Invalid JSON"⟩
    | .parsed b =>
      let resolved :=
        if strTruthy b.token then findAccountByToken tokens (b.token.getD "") accounts
        else (none, accounts.any (fun a => tokenConfigured tokens a))
      if resolved.2 = false then
        ⟨404, none, false, none, none, none, some "Not Found"⟩
      else if ¬ strTruthy b.token ∨ resolved.1 = none then
        ⟨401, none, false, none, none, none, some "Unauthorized"⟩
      else if ¬ strTruthy b.code then
        ⟨400, none, false, none, none, none, some "Missing code"⟩
      else
        match runCmd with
        | none => ⟨501, none, false, none, none, none,
            some "Pairing approval runtime not available"⟩
        | some result =>
          let code := jsToUpper (jsTrim (b.code.getD ""))
          if code = "" then ⟨400, none, false, none, none, none, some "Missing code"⟩
          else
            match result.exitCode with
            | some c =>
              if c = 0 then pairingSuccessResponse result
              else ⟨400, none, false, none, none, none,
                some "Failed to approve pairing code"⟩
            | none => pairingSuccessResponse result

theorem findAccountByToken_none_all (tokens : List (String × String)) (token : String) :
    ∀ (accounts : List String), (∀ a ∈ accounts, tokenConfigured tokens a = false) →
      findAccountByToken tokens token accounts = (none, false) := by
  intro accounts
  induction accounts with
  | nil => intro _; rfl
  | cons a rest ih =>
    intro hall
    have hconf := hall a (List.mem_cons_self _ _)
    have hrest := ih (fun x hx => hall x (List.mem_cons_of_mem _ hx))
    simp only [findAccountByToken]
    cases hlook : getPairingApiToken tokens a with
    | none => exact hrest
    | some e =>
      dsimp only
      have he : e = "" := by
        have := hconf
        rw [tokenConfigured, hlook] at this
        simpa [strTruthy] using this
      rw [if_pos he]
      exact hrest

theorem findAccountByToken_fst_none (tokens : List (String × String)) (token : String) :
    ∀ (accounts : List String),
      (∀ a ∈ accounts, ∀ et, getPairingApiToken tokens a = some et → et ≠ "" →
        ¬ token = et) →
      (findAccountByToken tokens token accounts).1 = none := by
  intro accounts
  induction accounts with
  | nil => intro _; rfl
  | cons a rest ih =>
    intro hall
    have hrest := ih (fun x hx => hall x (List.mem_cons_of_mem _ hx))
    simp only [findAccountByToken]
    cases hlook : getPairingApiToken tokens a with
    | none => exact hrest
    | some e =>
      dsimp only
      by_cases he : e = ""
      · rw [if_pos he]; exact hrest
      · rw [if_neg he]
        have hne : ¬ token = e := hall a (List.mem_cons_self _ _) e hlook he
        have hts : timingSafeEqualString token e = false := by
          rw [← Bool.not_eq_true, timingSafeEqualString_iff]
          exact hne
        rw [hts]
        simpa using hrest

theorem findAccountByToken_snd_true (tokens : List (String × String)) (token : String) :
    ∀ (accounts : List String),
      (∃ a ∈ accounts, tokenConfigured tokens a = true) →
      (findAccountByToken tokens token accounts).2 = true := by
  intro accounts
  induction accounts with
  | nil => rintro ⟨a, ha, _⟩; simp at ha
  | cons a rest ih =>
    rintro ⟨w, hw, hwc⟩
    simp only [findAccountByToken]
    cases hlook : getPairingApiToken tokens a with
    | none =>
      have hwrest : w ∈ rest := by
        rcases List.mem_cons.1 hw with h | h
        · subst h
          rw [tokenConfigured, hlook] at hwc
          simp [strTruthy] at hwc
        · exact h
      exact ih ⟨w, hwrest, hwc⟩
    | some e =>
      dsimp only
      by_cases he : e = ""
      · rw [if_pos he]
        have hwrest : w ∈ rest := by
          rcases List.mem_cons.1 hw with h | h
          · subst h
            rw [tokenConfigured, hlook] at hwc
            simp [strTruthy, he] at hwc
          · exact h
        exact ih ⟨w, hwrest, hwc⟩
      · rw [if_neg he]
        by_cases hts : timingSafeEqualString token e = true
        · simp [hts]
        · rw [Bool.not_eq_true] at hts
          simp [hts]

theorem findAccountByToken_match (tokens : List (String × String)) (token : String) :
    ∀ (accounts : List String),
      (∃ a ∈ accounts, getPairingApiToken tokens a = some token ∧ token ≠ "") →
      (findAccountByToken tokens token accounts).1.isSome = true ∧
        (findAccountByToken tokens token accounts).2 = true := by
  intro accounts
  induction accounts with
  | nil => rintro ⟨a, ha, _⟩; simp at ha
  | cons a rest ih =>
    rintro ⟨w, hw, hwtok, hwne⟩
    simp only [findAccountByToken]
    cases hlook : getPairingApiToken tokens a with
    | none =>
      have hwrest : w ∈ rest := by
        rcases List.mem_cons.1 hw with h | h
        · subst h; rw [hlook] at hwtok; simp at hwtok
        · exact h
      exact ih ⟨w, hwrest, hwtok, hwne⟩
    | some e =>
      dsimp only
      by_cases he : e = ""
      · rw [if_pos he]
        have hwrest : w ∈ rest := by
          rcases List.mem_cons.1 hw with h | h
          · subst h
            rw [hlook] at hwtok
            injection hwtok with h2
            exact absurd (he ▸ h2.symm) hwne
          · exact h
        exact ih ⟨w, hwrest, hwtok, hwne⟩
      · rw [if_neg he]
        by_cases hts : timingSafeEqualString token e = true
        · rw [hts]; exact ⟨rfl, rfl⟩
        · rw [Bool.not_eq_true] at hts
          rw [hts]
          have hwrest : w ∈ rest := by
            rcases List.mem_cons.1 hw with h | h
            · subst h
              rw [hlook] at hwtok
              injection hwtok with h2
              rw [h2] at hts
              rw [(timingSafeEqualString_iff token token).2 rfl] at hts
              simp at hts
            · exact h
          have := ih ⟨w, hwrest, hwtok, hwne⟩
          simp [this.1]

/--
C2: the status ladder of the multi-account pairing API.  A rate-limited
request answers 429 with the limiter's retry hint in `Retry-After`; with a
parsed body, no configured pairing token on any candidate account answers 404
(fail closed); a configured token with a missing, empty or everywhere
mismatched request token answers 401 (the comparison being
`timingSafeEqualString`); a matching token with a missing code answers 400;
and a matching token plus a valid code (nonempty after trim/uppercase) whose
approval command succeeds answers 200 carrying the approved subject's parsed
`accountId` and `openId`.
-/
theorem pairing_api_status_ladder
    (rateTable : List (String × RateBucket)) (ip : String) (now : Nat)
    (accounts : List String) (tokens : List (String × String))
    (body : ReqBodyOutcome PairingApiBody) (runCmd : Option CmdResult) :
    (∀ r, (checkPairingApiRateLimit rateTable ip now).1 = RateResult.tooMany r →
      (handlePairingApiMulti rateTable ip now accounts tokens body runCmd).status = 429 ∧
      (handlePairingApiMulti rateTable ip now accounts tokens body runCmd).retryAfter =
        some r) ∧
    ((checkPairingApiRateLimit rateTable ip now).1 = RateResult.ok →
      ∀ b, body = .parsed b →
      ((∀ a ∈ accounts, tokenConfigured tokens a = false) →
        (handlePairingApiMulti rateTable ip now accounts tokens body runCmd).status = 404) ∧
      ((∃ a ∈ accounts, tokenConfigured tokens a = true) →
        (b.token = none ∨ b.token = some "" ∨
          (∃ t, b.token = some t ∧ t ≠ "" ∧
            ∀ a ∈ accounts, ∀ et, getPairingApiToken tokens a = some et → et ≠ "" →
              ¬ t = et)) →
        (handlePairingApiMulti rateTable ip now accounts tokens body runCmd).status = 401) ∧
      (∀ t, b.token = some t →
        (∃ a ∈ accounts, getPairingApiToken tokens a = some t ∧ t ≠ "") →
        (b.code = none ∨ b.code = some "") →
        (handlePairingApiMulti rateTable ip now accounts tokens body runCmd).status = 400) ∧
      (∀ t cd res sid acct oid, b.token = some t →
        (∃ a ∈ accounts, getPairingApiToken tokens a = some t ∧ t ≠ "") →
        b.code = some cd → cd ≠ "" → jsToUpper (jsTrim cd) ≠ "" →
        runCmd = some res → (res.exitCode = some 0 ∨ res.exitCode = none) →
        extractApprovedSenderId res.stdout res.stderr = some sid →
        parseSubjectId sid = some (acct, oid) →
        (handlePairingApiMulti rateTable ip now accounts tokens body runCmd).status = 200 ∧
        (handlePairingApiMulti rateTable ip now accounts tokens body
          runCmd).accountId = some acct ∧
        (handlePairingApiMulti rateTable ip now accounts tokens body
          runCmd).openId = some oid)) := by
  constructor
  · intro r hr
    simp [handlePairingApiMulti, hr]
  · intro hok b hb
    subst hb
    refine ⟨?_, ?_, ?_, ?_⟩
    · intro hnone
      have hany : (accounts.any (fun a => tokenConfigured tokens a)) = false := by
        rw [List.any_eq_false]
        intro a ha
        simp [hnone a ha]
      by_cases htok : strTruthy b.token = true
      · have hfind := findAccountByToken_none_all tokens (b.token.getD "") accounts hnone
        simp [handlePairingApiMulti, hok, htok, hfind]
      · rw [Bool.not_eq_true] at htok
        simp [handlePairingApiMulti, hok, htok, hany]
    · intro hex hmis
      rcases hmis with hm | hm | ⟨t, hm, htne, hmis⟩
      · have htok : strTruthy b.token = false := by simp [hm, strTruthy]
        have hany : (accounts.any (fun a => tokenConfigured tokens a)) = true := by
          rw [List.any_eq_true]
          rcases hex with ⟨a, ha, hc⟩
          exact ⟨a, ha, hc⟩
        simp [handlePairingApiMulti, hok, htok, hany]
      · have htok : strTruthy b.token = false := by simp [hm, strTruthy]
        have hany : (accounts.any (fun a => tokenConfigured tokens a)) = true := by
          rw [List.any_eq_true]
          rcases hex with ⟨a, ha, hc⟩
          exact ⟨a, ha, hc⟩
        simp [handlePairingApiMulti, hok, htok, hany]
      · have htok : strTruthy b.token = true := by simp [hm, strTruthy, htne]
        have hfst := findAccountByToken_fst_none tokens t accounts hmis
        have hsnd := findAccountByToken_snd_true tokens t accounts hex
        simp [handlePairingApiMulti, hok, hm, strTruthy, htne, hfst, hsnd]
    · intro t hm hmatch hcode
      have htne : t ≠ "" := by
        rcases hmatch with ⟨a, _, _, h⟩
        exact h
      have htok : strTruthy b.token = true := by simp [hm, strTruthy, htne]
      have hfind := findAccountByToken_match tokens t accounts hmatch
      obtain ⟨acctFound, hacct⟩ := Option.isSome_iff_exists.1 hfind.1
      rcases hcode with hcn | hcn <;>
        simp [handlePairingApiMulti, hok, hm, strTruthy, htne, hfind.2, hacct, hcn]
    · intro t cd res sid acct oid hm hmatch hcd hcdne hupper hrun hexit hextract hparse
      have htne : t ≠ "" := by
        rcases hmatch with ⟨a, _, _, h⟩
        exact h
      have htok : strTruthy b.token = true := by simp [hm, strTruthy, htne]
      have hfind := findAccountByToken_match tokens t accounts hmatch
      obtain ⟨acctFound, hacct⟩ := Option.isSome_iff_exists.1 hfind.1
      have hcodet : strTruthy b.code = true := by simp [hcd, strTruthy, hcdne]
      have hsucc : pairingSuccessResponse res =
          ⟨200, none, true, some sid, some acct, some oid, none⟩ := by
        simp [pairingSuccessResponse, hextract, hparse]
      rcases hexit with hx | hx <;>
        simp [handlePairingApiMulti, hok, hm, strTruthy, htne, hfind.2, hacct, hcd,
          hcdne, hrun, hupper, hx, hsucc]

/-- Witness for C2 at concrete inputs: a fresh limiter, one account with token
"tok": no configured token answers 404, a wrong token answers 401, a missing
code answers 400, and a good token plus approved code answers 200 with the
subject parsed out of the command output. -/
theorem pairing_api_status_ladder_witness :
    (handlePairingApiMulti [] "9.9.9.9" 0 ["acct"] []
      (.parsed ⟨some "123456", some "tok"⟩) none).status = 404 ∧
    (handlePairingApiMulti [] "9.9.9.9" 0 ["acct"] [("acct", "tok")]
      (.parsed ⟨some "123456", some "wrong"⟩) none).status = 401 ∧
    (handlePairingApiMulti [] "9.9.9.9" 0 ["acct"] [("acct", "tok")]
      (.parsed ⟨none, some "tok"⟩) none).status = 400 ∧
    ((handlePairingApiMulti [] "9.9.9.9" 0 ["acct"] [("acct", "tok")]
      (.parsed ⟨some "123456", some "tok"⟩)
      (some ⟨"Approved wemp sender acct:user-9.", "", some 0⟩)).status = 200 ∧
     (handlePairingApiMulti [] "9.9.9.9" 0 ["acct"] [("acct", "tok")]
      (.parsed ⟨some "123456", some "tok"⟩)
      (some ⟨"Approved wemp sender acct:user-9.", "", some 0⟩)).accountId = some "acct" ∧
     (handlePairingApiMulti [] "9.9.9.9" 0 ["acct"] [("acct", "tok")]
      (.parsed ⟨some "123456", some "tok"⟩)
      (some ⟨"Approved wemp sender acct:user-9.", "", some 0⟩)).openId = some "user-9") := by
  refine ⟨?_, ?_, ?_, ?_⟩
  · exact ((pairing_api_status_ladder [] "9.9.9.9" 0 ["acct"] []
      (.parsed ⟨some "123456", some "tok"⟩) none).2 rfl _ rfl).1
      (by intro a ha; simp at ha; subst ha; rfl)
  · exact ((pairing_api_status_ladder [] "9.9.9.9" 0 ["acct"] [("acct", "tok")]
      (.parsed ⟨some "123456", some "wrong"⟩) none).2 rfl _ rfl).2.1
      ⟨"acct", by simp, by rfl⟩
      (Or.inr (Or.inr ⟨"wrong", rfl, by decide, by
        intro a ha et het hetne
        simp at ha
        subst ha
        simp [getPairingApiToken, assocLookup, List.find?] at het
        subst het
        decide⟩))
  · exact ((pairing_api_status_ladder [] "9.9.9.9" 0 ["acct"] [("acct", "tok")]
      (.parsed ⟨none, some "tok"⟩) none).2 rfl _ rfl).2.2.1 "tok" rfl
      ⟨"acct", by simp, by rfl, by decide⟩ (Or.inl rfl)
  · have hstrip : stripAnsiChars
        (("Approved wemp sender acct:user-9." ++ "\n" ++ "").data) =
        ("Approved wemp sender acct:user-9." ++ "\n" ++ "").data :=
      stripAnsiChars_no_esc _ (by decide)
    have hextract : extractApprovedSenderId "Approved wemp sender acct:user-9." "" =
        some "acct:user-9" := by
      unfold extractApprovedSenderId
      rw [hstrip]
      rfl
    exact ((pairing_api_status_ladder [] "9.9.9.9" 0 ["acct"] [("acct", "tok")]
      (.parsed ⟨some "123456", some "tok"⟩)
      (some ⟨"Approved wemp sender acct:user-9.", "", some 0⟩)).2 rfl _ rfl).2.2.2
      "tok" "123456" ⟨"Approved wemp sender acct:user-9.", "", some 0⟩
      "acct:user-9" "acct" "user-9" rfl
      ⟨"acct", by simp, by rfl, by decide⟩ rfl (by decide) (by decide) rfl
      (Or.inl rfl) hextract (by rfl)
